/-
Verification of the npmx.dev image-proxy pipeline.

Shallow embedding of:
  * src/server/utils/image-proxy.ts
      (isTrustedImageDomain, isPrivateIP, isAllowedImageUrl,
       resolveAndValidateHost, signImageUrl, verifyImageUrl, toProxiedImageUrl)
  * src/server/api/social/profile/[identifier]/likes.get.ts
      (the image-proxy event handler: signature check, policy guard, DNS
       validation, manual redirect loop, content checks, bounded streaming relay)

Platform libraries used by the source are modelled executably:
  * the WHATWG `URL` parser (scheme/hostname extraction, relative resolution),
  * `ipaddr.js` (address validity, IPv4/IPv6 range classification,
    IPv4-mapped-IPv6 unwrapping),
  * `node:crypto` `createHmac('sha256', ...)` as real HMAC-SHA-256,
  * `node:dns` `lookup` as an explicit function parameter (the DNS oracle),
  * `fetch` as an explicit function parameter (the network oracle),
  * Node `Readable` streams as a nondeterministic labelled step machine
    (data events, end event, consumer reads, pause/resume backpressure).
-/
import Mathlib

set_option maxRecDepth 10000

namespace ImageProxy

/-! ## Generic string/list helpers (models of JS string primitives) -/

/-- Model of JS `String.prototype.startsWith`. -/
def strStartsWith (s pre : String) : Bool :=
  pre.toList.isPrefixOf s.toList

/-- Model of JS `String.prototype.endsWith`. -/
def strEndsWith (s suf : String) : Bool :=
  suf.toList.isSuffixOf s.toList

/-- Whether `needle` occurs contiguously inside `haystack`. -/
def listContainsSub (needle : List Char) : List Char → Bool
  | [] => needle.isEmpty
  | c :: cs => needle.isPrefixOf (c :: cs) || listContainsSub needle cs

/-- Model of JS `String.prototype.includes` (substring containment). -/
def strContains (s sub : String) : Bool :=
  listContainsSub sub.toList s.toList

/-- Model of JS `String.prototype.toLowerCase` (ASCII range; the source only
compares against ASCII constants). -/
def strToLower (s : String) : String :=
  ⟨s.toList.map Char.toLower⟩

/-- Take the longest prefix whose characters satisfy `p`, and the rest. -/
def spanP (p : Char → Bool) : List Char → List Char × List Char
  | [] => ([], [])
  | c :: cs =>
    if p c then
      let r := spanP p cs
      (c :: r.1, r.2)
    else ([], c :: cs)

/-- Decimal value of a digit string (callers ensure all chars are digits). -/
def natOfDigits (l : List Char) : Nat :=
  l.foldl (fun a c => a * 10 + (c.toNat - 48)) 0

/-- Split at every occurrence of the (non-empty) separator sequence `sep`;
analogue of `String.prototype.split`.  The fuel argument (instantiated to
more than the list length) keeps the recursion structural. -/
def splitOnSubF (sep : List Char) : Nat → List Char → List (List Char)
  | _, [] => [[]]
  | 0, l => [l]
  | fuel + 1, c :: cs =>
    if sep.isPrefixOf (c :: cs) ∧ ¬ sep.isEmpty then
      [] :: splitOnSubF sep fuel ((c :: cs).drop sep.length)
    else
      match splitOnSubF sep fuel cs with
      | [] => [[c]]
      | g :: gs => (c :: g) :: gs

/-- String splitting on a non-empty separator. -/
def strSplitOn (s sep : String) : List String :=
  (splitOnSubF sep.toList (s.toList.length + 1) s.toList).map (⟨·⟩)

/-- Hex value of one hex digit, if it is one. -/
def hexDigitVal (c : Char) : Option Nat :=
  if '0' ≤ c ∧ c ≤ '9' then some (c.toNat - 48)
  else if 'a' ≤ c ∧ c ≤ 'f' then some (c.toNat - 87)
  else if 'A' ≤ c ∧ c ≤ 'F' then some (c.toNat - 55)
  else none

/-! ## Model of `ipaddr.js`

`ipaddr.isValid` / `ipaddr.process(...).range()` as used by `isPrivateIP`.
The parser covers dotted-quad decimal IPv4 and RFC-4291 IPv6 text (including
`::` compression and an embedded IPv4 tail); `ipaddr.js` additionally accepts
rare legacy IPv4 notations (octal/hex/long-value), which the claims never
exercise.  Range tables are transcribed from `ipaddr.js`'s `SpecialRanges`. -/

/-- One decimal octet `0..255`. -/
def parseDecOctet (s : String) : Option Nat :=
  let l := s.toList
  if l.length = 0 ∨ ¬ l.all Char.isDigit then none
  else
    let v := natOfDigits l
    if v ≤ 255 then some v else none

/-- Dotted-quad IPv4 literal. -/
def parseIPv4 (s : String) : Option (List Nat) :=
  match (strSplitOn s ".").mapM parseDecOctet with
  | some parts => if parts.length = 4 then some parts else none
  | none => none

def ipv4ToNat (octets : List Nat) : Nat :=
  octets.foldl (fun a b => a * 256 + b) 0

def v4 (a b c d : Nat) : Nat :=
  ((a * 256 + b) * 256 + c) * 256 + d

/-- CIDR membership for a 32-bit value. -/
def ipv4InRange (x base len : Nat) : Bool :=
  x / 2 ^ (32 - len) == base / 2 ^ (32 - len)

/-- The `ipaddr.js` IPv4 `SpecialRanges`, in source order; first match wins. -/
def ipv4Range (x : Nat) : String :=
  if ipv4InRange x (v4 0 0 0 0) 8 then "unspecified"
  else if x == v4 255 255 255 255 then "broadcast"
  else if ipv4InRange x (v4 224 0 0 0) 4 then "multicast"
  else if ipv4InRange x (v4 169 254 0 0) 16 then "linkLocal"
  else if ipv4InRange x (v4 127 0 0 0) 8 then "loopback"
  else if ipv4InRange x (v4 100 64 0 0) 10 then "carrierGradeNat"
  else if ipv4InRange x (v4 10 0 0 0) 8 ∨ ipv4InRange x (v4 172 16 0 0) 12 ∨
          ipv4InRange x (v4 192 168 0 0) 16 then "private"
  else if ipv4InRange x (v4 192 0 0 0) 24 ∨ ipv4InRange x (v4 192 0 2 0) 24 ∨
          ipv4InRange x (v4 192 88 99 0) 24 ∨ ipv4InRange x (v4 198 18 0 0) 15 ∨
          ipv4InRange x (v4 198 51 100 0) 24 ∨ ipv4InRange x (v4 203 0 113 0) 24 ∨
          ipv4InRange x (v4 240 0 0 0) 4 then "reserved"
  else "unicast"

/-- One 16-bit hex group of an IPv6 literal. -/
def parseHexGroup (s : String) : Option Nat :=
  let l := s.toList
  if l.length = 0 ∨ 4 < l.length then none
  else (l.mapM hexDigitVal).map (·.foldl (fun a v => a * 16 + v) 0)

/-- One colon-separated side of an IPv6 literal (possibly around `::`);
the final piece may be an embedded dotted-quad IPv4 address. -/
def parseIPv6Side (s : String) : Option (List Nat) :=
  if s = "" then some []
  else
    let parts := strSplitOn s ":"
    match parts.getLast? with
    | none => none
    | some last =>
      if last.toList.contains '.' then
        match parseIPv4 last, (parts.dropLast).mapM parseHexGroup with
        | some [a, b, c, d], some gs => some (gs ++ [a * 256 + b, c * 256 + d])
        | _, _ => none
      else parts.mapM parseHexGroup

/-- RFC-4291 IPv6 literal as eight 16-bit groups. -/
def parseIPv6 (s : String) : Option (List Nat) :=
  let s := strToLower s
  match strSplitOn s "::" with
  | [whole] =>
    match parseIPv6Side whole with
    | some gs => if gs.length = 8 then some gs else none
    | none => none
  | [l, r] =>
    match parseIPv6Side l, parseIPv6Side r with
    | some gl, some gr =>
      if gl.length + gr.length ≤ 7 then
        some (gl ++ List.replicate (8 - gl.length - gr.length) 0 ++ gr)
      else none
    | _, _ => none
  | _ => none

def ipv6ToNat (groups : List Nat) : Nat :=
  groups.foldl (fun a g => a * 65536 + g) 0

def v6 (g0 g1 g2 g3 g4 g5 g6 g7 : Nat) : Nat :=
  ipv6ToNat [g0, g1, g2, g3, g4, g5, g6, g7]

/-- CIDR membership for a 128-bit value. -/
def ipv6InRange (x base len : Nat) : Bool :=
  x / 2 ^ (128 - len) == base / 2 ^ (128 - len)

/-- The `ipaddr.js` IPv6 `SpecialRanges`, in source order; first match wins. -/
def ipv6Range (groups : List Nat) : String :=
  let x := ipv6ToNat groups
  if x == 0 then "unspecified"
  else if ipv6InRange x (v6 0xfe80 0 0 0 0 0 0 0) 10 then "linkLocal"
  else if ipv6InRange x (v6 0xff00 0 0 0 0 0 0 0) 8 then "multicast"
  else if x == 1 then "loopback"
  else if ipv6InRange x (v6 0xfc00 0 0 0 0 0 0 0) 7 then "uniqueLocal"
  else if ipv6InRange x (v6 0 0 0 0 0 0xffff 0 0) 96 then "ipv4Mapped"
  else if ipv6InRange x (v6 0x100 0 0 0 0 0 0 0) 64 then "discard"
  else if ipv6InRange x (v6 0 0 0 0 0xffff 0 0 0) 96 then "rfc6145"
  else if ipv6InRange x (v6 0x64 0xff9b 0 0 0 0 0 0) 96 then "rfc6052"
  else if ipv6InRange x (v6 0x2002 0 0 0 0 0 0 0) 16 then "6to4"
  else if ipv6InRange x (v6 0x2001 0 0 0 0 0 0 0) 32 then "teredo"
  else if ipv6InRange x (v6 0x2001 2 0 0 0 0 0 0) 48 then "benchmarking"
  else if ipv6InRange x (v6 0x2001 3 0 0 0 0 0 0) 32 then "amt"
  else if ipv6InRange x (v6 0x2001 4 0x112 0 0 0 0 0) 48 then "as112v6"
  else if ipv6InRange x (v6 0x2001 0x10 0 0 0 0 0 0) 28 then "deprecated"
  else if ipv6InRange x (v6 0x2001 0x20 0 0 0 0 0 0) 28 then "orchid2"
  else if ipv6InRange x (v6 0x2001 0x30 0 0 0 0 0 0) 28 then
    "droneRemoteIdProtocolEntityTags"
  else if ipv6InRange x (v6 0x2001 0xdb8 0 0 0 0 0 0) 32 then "reserved"
  else "unicast"

/-- The IPv4 address embedded in an IPv4-mapped IPv6 address
(`ipaddr.process` unwraps `::ffff:a.b.c.d` to `a.b.c.d`). -/
def mappedToV4 (groups : List Nat) : Nat :=
  match groups with
  | [_, _, _, _, _, _, hi, lo] => hi * 65536 + lo
  | _ => 0

/-- Model of `ipaddr.isValid` plus `ipaddr.process(...).range()` combined: `none` exactly
when the string is not a valid IP literal, otherwise the range name of the
processed (IPv4-mapped-unwrapped) address. -/
def ipRangeOf (s : String) : Option String :=
  match parseIPv4 s with
  | some octets => some (ipv4Range (ipv4ToNat octets))
  | none =>
    match parseIPv6 s with
    | some groups =>
      if ipv6Range groups = "ipv4Mapped" then some (ipv4Range (mappedToV4 groups))
      else some (ipv6Range groups)
    | none => none

/-- Model of `ipaddr.isValid`. -/
def ipaddrIsValid (s : String) : Bool :=
  (ipRangeOf s).isSome

/-- Strip one balanced pair of square brackets (bracketed IPv6 hostnames). -/
def unbracket (ip : String) : String :=
  if strStartsWith ip "[" ∧ strEndsWith ip "]" then ⟨(ip.toList.drop 1).dropLast⟩ else ip

/-! ## Model of the WHATWG `URL` parser (as far as the source reads it)

The source reads only `parsed.protocol` and `parsed.hostname`. The model
extracts the scheme, skips the `//`, strips userinfo and a well-formed port,
keeps brackets on IPv6 hosts and lowercases the host, and returns `none`
(`URL.parse` → `null`) for scheme-less input, an empty host on a special
scheme, an unterminated bracket, or a malformed port.  Non-special schemes
(e.g. `data:`) parse with an empty hostname, which is all the guard needs
since it rejects them by protocol first. -/

structure ParsedUrl where
  protocol : String
  hostname : String
deriving Repr, DecidableEq

/-- Split a leading `scheme:`; returns the lowercased scheme (without the
colon) and the remainder, or `none` when the input has no valid scheme. -/
def splitScheme (s : String) : Option (String × String) :=
  let r := spanP (fun c => c ≠ ':') s.toList
  match r.2 with
  | [] => none
  | _ :: rest =>
    match r.1 with
    | [] => none
    | c0 :: cs =>
      if c0.isAlpha ∧ cs.all (fun c => c.isAlphanum ∨ c = '+' ∨ c = '-' ∨ c = '.') then
        some (strToLower ⟨r.1⟩, ⟨rest⟩)
      else none

/-- Schemes the WHATWG standard treats as "special" (authority-bearing). -/
def specialSchemes : List String := ["http", "https", "ws", "wss", "ftp", "file"]

/-- An optional `:port` suffix: empty, or a colon followed by decimal digits
whose value fits in 16 bits. -/
def validPortPart (l : List Char) : Bool :=
  match l with
  | [] => true
  | ':' :: digits => digits.all Char.isDigit && natOfDigits digits ≤ 65535
  | _ => false

/-- Characters after the last `@` (userinfo stripping). -/
def afterLastAt (l : List Char) : List Char :=
  if l.contains '@' then ((spanP (fun c => c ≠ '@') l.reverse).1).reverse else l

/-- Hostname of an authority component, `none` on parse failure. -/
def parseHostname (rest : List Char) : Option String :=
  let afterSlashes := rest.dropWhile (fun c => c = '/')
  let auth := (spanP (fun c => c ≠ '/' ∧ c ≠ '?' ∧ c ≠ '#') afterSlashes).1
  let auth := afterLastAt auth
  match auth with
  | '[' :: tl =>
    let r := spanP (fun c => c ≠ ']') tl
    match r.1, r.2 with
    | [], _ => none
    | host, ']' :: portPart =>
      if validPortPart portPart then some (strToLower ⟨'[' :: host ++ [']']⟩) else none
    | _, _ => none
  | _ =>
    let r := spanP (fun c => c ≠ ':') auth
    if r.1 = [] then none
    else if validPortPart r.2 then some (strToLower ⟨r.1⟩) else none

/-- Model of `URL.parse(s)` (no base): `none` is JavaScript `null`. -/
def URLparse (s : String) : Option ParsedUrl :=
  match splitScheme s with
  | none => none
  | some (scheme, rest) =>
    if specialSchemes.contains scheme then
      if scheme = "file" then some ⟨"file:", ""⟩
      else
        match parseHostname rest.toList with
        | some host => some ⟨scheme ++ ":", host⟩
        | none => none
    else some ⟨scheme ++ ":", ""⟩

/-! ## `src/server/utils/image-proxy.ts` — pure guard functions -/

/-- The `TRUSTED_IMAGE_DOMAINS` list (verbatim from the source). -/
def TRUSTED_IMAGE_DOMAINS : List String :=
  ["npmx.dev",
   "raw.githubusercontent.com", "github.com", "user-images.githubusercontent.com",
   "avatars.githubusercontent.com", "repository-images.githubusercontent.com",
   "github.githubassets.com", "objects.githubusercontent.com",
   "gitlab.com",
   "cdn.jsdelivr.net", "unpkg.com",
   "img.shields.io", "shields.io", "badge.fury.io", "badgen.net",
   "flat.badgen.net", "codecov.io", "coveralls.io", "david-dm.org",
   "snyk.io", "app.fossa.com", "api.codeclimate.com", "bundlephobia.com",
   "packagephobia.com"]

/-- Source function `isTrustedImageDomain(url)`. -/
def isTrustedImageDomain (url : String) : Bool :=
  match URLparse url with
  | none => false
  | some parsed =>
    if parsed.hostname = "" then false
    else
      let hostname := strToLower parsed.hostname
      TRUSTED_IMAGE_DOMAINS.any
        (fun domain => hostname == domain || strEndsWith hostname ("." ++ domain))

/-- Source function `isPrivateIP(ip)`: bracket-stripped; `false` for strings that are not IP
literals; otherwise `true` iff the `ipaddr.js` range of the processed address
is not `'unicast'`. -/
def isPrivateIP (ip : String) : Bool :=
  let bare := unbracket ip
  match ipRangeOf bare with
  | none => false
  | some r => r != "unicast"

/-- Source function `isAllowedImageUrl(url)`. -/
def isAllowedImageUrl (url : String) : Bool :=
  match URLparse url with
  | none => false
  | some parsed =>
    if parsed.protocol ≠ "http:" ∧ parsed.protocol ≠ "https:" then false
    else
      let hostname := strToLower parsed.hostname
      if hostname = "" then false
      else if hostname = "localhost" ∨ strEndsWith hostname ".local" ∨
              strEndsWith hostname ".internal" then false
      else if isPrivateIP hostname then false
      else true

/-- Source function `resolveAndValidateHost(url)`, instrumented with the list of hostnames it
hands to `dns.lookup` (`[]` or a singleton); `dns` is the DNS oracle:
`none` models a lookup that throws, `some l` a result list. -/
def resolveAndValidateHostT (dns : String → Option (List String)) (url : String) :
    Bool × List String :=
  match URLparse url with
  | none => (false, [])
  | some parsed =>
    if parsed.hostname = "" then (false, [])
    else
      let hostname := strToLower parsed.hostname
      let bare := unbracket hostname
      if ipaddrIsValid bare then (!isPrivateIP bare, [])
      else
        match dns hostname with
        | none => (false, [hostname])
        | some results =>
          if results.length = 0 then (false, [hostname])
          else (results.all (fun r => !isPrivateIP r), [hostname])

/-- Source function `resolveAndValidateHost(url)` — the boolean verdict. -/
def resolveAndValidateHost (dns : String → Option (List String)) (url : String) : Bool :=
  (resolveAndValidateHostT dns url).1

/-! ## Model of `node:crypto` `createHmac('sha256', secret).update(url).digest('hex')`

Real SHA-256 (FIPS 180-4) and HMAC (RFC 2104) over byte lists, with 32-bit
words as `Nat` reduced mod `2^32`; UTF-8 encoding of the inputs as
`update`/`createHmac` do for string arguments. -/

/-- Truncate to a 32-bit word. -/
def w32 (x : Nat) : Nat := x % 4294967296

/-- Right-rotation of a 32-bit word (words are already `< 2^32`). -/
def rotr (n x : Nat) : Nat := w32 (x / 2 ^ n + x * 2 ^ (32 - n))

def shaCh (e f g : Nat) : Nat :=
  Nat.xor (Nat.land e f) (Nat.land (Nat.xor e 4294967295) g)

def shaMaj (a b c : Nat) : Nat :=
  Nat.xor (Nat.xor (Nat.land a b) (Nat.land a c)) (Nat.land b c)

def bigSigma0 (x : Nat) : Nat := Nat.xor (Nat.xor (rotr 2 x) (rotr 13 x)) (rotr 22 x)

def bigSigma1 (x : Nat) : Nat := Nat.xor (Nat.xor (rotr 6 x) (rotr 11 x)) (rotr 25 x)

def smallSigma0 (x : Nat) : Nat := Nat.xor (Nat.xor (rotr 7 x) (rotr 18 x)) (x / 2 ^ 3)

def smallSigma1 (x : Nat) : Nat := Nat.xor (Nat.xor (rotr 17 x) (rotr 19 x)) (x / 2 ^ 10)

/-- SHA-256 round constants. -/
def K256 : List Nat :=
  [1116352408, 1899447441, 3049323471, 3921009573, 961987163,
   1508970993, 2453635748, 2870763221, 3624381080, 310598401,
   607225278, 1426881987, 1925078388, 2162078206, 2614888103,
   3248222580, 3835390401, 4022224774, 264347078, 604807628,
   770255983, 1249150122, 1555081692, 1996064986, 2554220882,
   2821834349, 2952996808, 3210313671, 3336571891, 3584528711,
   113926993, 338241895, 666307205, 773529912, 1294757372,
   1396182291, 1695183700, 1986661051, 2177026350, 2456956037,
   2730485921, 2820302411, 3259730800, 3345764771, 3516065817,
   3600352804, 4094571909, 275423344, 430227734, 506948616,
   659060556, 883997877, 958139571, 1322822218, 1537002063,
   1747873779, 1955562222, 2024104815, 2227730452, 2361852424,
   2428436474, 2756734187, 3204031479, 3329325298]

/-- Hash state: eight 32-bit working variables. -/
structure Sha256State where
  a : Nat
  b : Nat
  c : Nat
  d : Nat
  e : Nat
  f : Nat
  g : Nat
  h : Nat
deriving Repr, DecidableEq

/-- SHA-256 initial hash value. -/
def initH : Sha256State :=
  ⟨1779033703, 3144134277, 1013904242, 2773480762,
   1359893119, 2600822924, 528734635, 1541459225⟩

/-- One compression round. -/
def shaRound (st : Sha256State) (kw : Nat × Nat) : Sha256State :=
  let t1 := w32 (st.h + bigSigma1 st.e + shaCh st.e st.f st.g + kw.1 + kw.2)
  let t2 := w32 (bigSigma0 st.a + shaMaj st.a st.b st.c)
  ⟨w32 (t1 + t2), st.a, st.b, st.c, w32 (st.d + t1), st.e, st.f, st.g⟩

/-- Extend a 16-word block to the 64-word message schedule (`k` = words left to add). -/
def msgSchedule : Nat → List Nat → List Nat
  | 0, w => w
  | k + 1, w =>
    let n := w.length
    let wt := w32 (smallSigma1 (w.getD (n - 2) 0) + w.getD (n - 7) 0 +
                   smallSigma0 (w.getD (n - 15) 0) + w.getD (n - 16) 0)
    msgSchedule k (w ++ [wt])

/-- Big-endian 4-byte groups to 32-bit words. -/
def bytesToWords : List Nat → List Nat
  | b0 :: b1 :: b2 :: b3 :: rest => (((b0 * 256 + b1) * 256 + b2) * 256 + b3) :: bytesToWords rest
  | _ => []

/-- Split into 64-byte blocks. -/
def chunks64 (l : List Nat) : List (List Nat) :=
  if h : l = [] then []
  else
    have : (l.drop 64).length < l.length := by
      have hl : 0 < l.length := List.length_pos.mpr h
      simp only [List.length_drop]
      omega
    l.take 64 :: chunks64 (l.drop 64)
termination_by l.length

/-- Big-endian 8-byte encoding of the bit length. -/
def lengthBytes (n : Nat) : List Nat :=
  [n / 2 ^ 56 % 256, n / 2 ^ 48 % 256, n / 2 ^ 40 % 256, n / 2 ^ 32 % 256,
   n / 2 ^ 24 % 256, n / 2 ^ 16 % 256, n / 2 ^ 8 % 256, n % 256]

/-- FIPS 180-4 padding: `0x80`, zeros to 56 mod 64, then the 64-bit bit length. -/
def padMessage (msg : List Nat) : List Nat :=
  let len := msg.length
  let padLen := (55 + 64 - len % 64) % 64
  msg ++ [0x80] ++ List.replicate padLen 0 ++ lengthBytes (len * 8)

/-- Compress one 64-byte block into the running hash. -/
def sha256Compress (H : Sha256State) (block : List Nat) : Sha256State :=
  let w := msgSchedule 48 (bytesToWords block)
  let st := (K256.zip w).foldl shaRound H
  ⟨w32 (H.a + st.a), w32 (H.b + st.b), w32 (H.c + st.c), w32 (H.d + st.d),
   w32 (H.e + st.e), w32 (H.f + st.f), w32 (H.g + st.g), w32 (H.h + st.h)⟩

/-- Big-endian bytes of a 32-bit word. -/
def wordBytes (w : Nat) : List Nat :=
  [w / 16777216 % 256, w / 65536 % 256, w / 256 % 256, w % 256]

/-- SHA-256 digest (32 bytes) of a byte message. -/
def sha256Bytes (msg : List Nat) : List Nat :=
  let final := (chunks64 (padMessage msg)).foldl sha256Compress initH
  wordBytes final.a ++ wordBytes final.b ++ wordBytes final.c ++ wordBytes final.d ++
  wordBytes final.e ++ wordBytes final.f ++ wordBytes final.g ++ wordBytes final.h

/-- UTF-8 encoding of one scalar value (payload bits per RFC 3629). -/
def utf8EncodeChar (c : Char) : List Nat :=
  let n := c.toNat
  if n < 128 then [n]
  else if n < 2048 then [192 + n / 64, 128 + n % 64]
  else if n < 65536 then [224 + n / 4096, 128 + n / 64 % 64, 128 + n % 64]
  else [240 + n / 262144 % 8, 128 + n / 4096 % 64, 128 + n / 64 % 64, 128 + n % 64]

/-- UTF-8 bytes of a string. -/
def utf8Bytes (s : String) : List Nat :=
  (s.toList.map utf8EncodeChar).flatten

/-- HMAC-SHA-256 (RFC 2104): 64-byte block size, `0x36`/`0x5c` pads. -/
def hmacSha256 (key msg : List Nat) : List Nat :=
  let k0 := if 64 < key.length then sha256Bytes key else key
  let k := k0 ++ List.replicate (64 - k0.length) 0
  let ipadKey := k.map (fun b => b ^^^ 0x36)
  let opadKey := k.map (fun b => b ^^^ 0x5c)
  sha256Bytes (opadKey ++ sha256Bytes (ipadKey ++ msg))

/-- Lowercase hex digit (Node's `digest('hex')` is lowercase). -/
def hexDigit (n : Nat) : Char :=
  if n < 10 then Char.ofNat (48 + n) else Char.ofNat (87 + n)

/-- Lowercase hex encoding of a byte list. -/
def hexOfBytes (bs : List Nat) : String :=
  ⟨(bs.map (fun b => [hexDigit (b / 16 % 16), hexDigit (b % 16)])).flatten⟩

/-! ## `src/server/utils/image-proxy.ts` — signer/verifier and URL builder -/

/-- Source function `signImageUrl(url, secret)`: hex HMAC-SHA-256 of the URL under the secret. -/
def signImageUrl (url secret : String) : String :=
  hexOfBytes (hmacSha256 (utf8Bytes secret) (utf8Bytes url))

/-- Source function `verifyImageUrl(url, signature, secret)`: falsy signature or secret fails;
otherwise recompute and compare (length check, then equality). -/
def verifyImageUrl (url signature secret : String) : Bool :=
  if signature == "" || secret == "" then false
  else
    let expected := signImageUrl url secret
    expected.length == signature.length && expected == signature

/-- Model of `encodeURIComponent`: unreserved characters pass through, all
others are percent-encoded bytewise (uppercase hex) from their UTF-8 form. -/
def encodeURIComponent (s : String) : String :=
  let unreserved := fun (c : Char) =>
    c.isAlphanum ∨ c = '-' ∨ c = '_' ∨ c = '.' ∨ c = '!' ∨ c = '~' ∨
    c = '*' ∨ c = '\'' ∨ c = '(' ∨ c = ')'
  ⟨(s.toList.map (fun c =>
      if unreserved c then [c]
      else (utf8EncodeChar c).map
        (fun b => ['%', (hexDigit (b / 16 % 16)).toUpper, (hexDigit (b % 16)).toUpper])
        |>.flatten)).flatten⟩

/-- Protocol-relative URLs are treated as HTTPS for proxying
(`toProxiedImageUrl`, line "Protocol-relative URLs should be treated as
HTTPS for proxying purposes"). -/
def normalizeProtocolRelative (url : String) : String :=
  if strStartsWith url "//" then "https:" ++ url else url

/-- The classification/signing part of `toProxiedImageUrl`, applied to the
already-normalized URL; `url` is the original argument returned verbatim on
the reject paths. -/
def toProxiedImageUrlAux (normalizedUrl url secret : String) : String :=
  match URLparse normalizedUrl with
  | none => url
  | some parsed =>
    if parsed.protocol ≠ "http:" ∧ parsed.protocol ≠ "https:" then url
    else if isTrustedImageDomain normalizedUrl then normalizedUrl
    else
      let signature := signImageUrl normalizedUrl secret
      "/api/registry/image-proxy?url=" ++ encodeURIComponent normalizedUrl ++
        "&sig=" ++ signature

/-- Source function `toProxiedImageUrl(url, secret)`. -/
def toProxiedImageUrl (url secret : String) : String :=
  if url == "" || strStartsWith url "#" || strStartsWith url "data:" then url
  else toProxiedImageUrlAux (normalizeProtocolRelative url) url secret

/-! ## `likes.get.ts` image-proxy event handler

The handler is embedded as a function of the request's query parameters, the
runtime secret, and a `World` bundling the two I/O oracles (`fetch`, DNS).
Alongside its outcome it returns a `Trace`: the URLs actually fetched and the
hostnames actually handed to `dns.lookup`, in order — this is how the
"no network I/O before/without validation" claims are stated. -/

/-- Constant `MAX_SIZE = 10 * 1024 * 1024` from the handler source. -/
def MAX_SIZE : Nat := 10 * 1024 * 1024

/-- Constant `MAX_REDIRECTS = 5` from the handler source. -/
def MAX_REDIRECTS : Nat := 5

/-- Constant `REDIRECT_STATUSES = new Set([301, 302, 303, 307, 308])`. -/
def REDIRECT_STATUSES : List Nat := [301, 302, 303, 307, 308]

/-- A `fetch` response as far as the handler reads it.  `body = none` models a
`null` response body; chunks are byte counts of the `data` events the body
would produce. -/
structure UpstreamResponse where
  status : Nat
  location : Option String := none
  contentType : Option String := none
  contentLength : Option String := none
  body : Option (List Nat) := none
deriving Repr, DecidableEq

/-- The I/O oracles: `fetch u = none` models a fetch that throws (network
error / timeout); `dns h = none` a `lookup` that throws. -/
structure World where
  fetch : String → Option UpstreamResponse
  dns : String → Option (List String)

/-- Network actions performed, in order. -/
structure Trace where
  fetches : List String
  lookups : List String
deriving Repr, DecidableEq

/-- Handler outcome: a thrown `createError` (`statusCode`, `message`), or the
committed success response (status 200, headers set, body streamed). -/
inductive ProxyOutcome where
  | error (statusCode : Nat) (message : String)
  | stream (statusCode : Nat) (contentType : String) (body : List Nat)
deriving Repr, DecidableEq

/-- The HTTP status the caller observes (for a stream it is already
committed when streaming starts). -/
def statusCodeOf : ProxyOutcome → Nat
  | .error c _ => c
  | .stream c _ _ => c

/-- Model of `Number.parseInt(s, 10)`: optional whitespace and sign, then a
non-empty decimal-digit prefix; `none` is `NaN`. -/
def jsParseIntDec (s : String) : Option Int :=
  let l := s.toList.dropWhile (fun c => c = ' ' ∨ c = '\t' ∨ c = '\n' ∨ c = '\r')
  let digitsPrefix := fun (l : List Char) =>
    let ds := l.takeWhile Char.isDigit
    if ds.isEmpty then none else some (natOfDigits ds)
  match l with
  | '-' :: rest => (digitsPrefix rest).map (fun n => -(n : Int))
  | '+' :: rest => (digitsPrefix rest).map (fun n => (n : Int))
  | _ => (digitsPrefix l).map (fun n => (n : Int))

/-- The `scheme:` of an absolute URL string (serialization helper for relative
resolution). -/
def urlSchemeOf (s : String) : String :=
  match splitScheme s with
  | some (scheme, _) => scheme ++ ":"
  | none => ""

/-- The `scheme://authority` of an absolute URL string, verbatim authority. -/
def urlOriginOf (s : String) : String :=
  match splitScheme s with
  | some (scheme, rest) =>
    let afterSlashes := rest.toList.dropWhile (fun c => c = '/')
    scheme ++ "://" ++ ⟨(spanP (fun c => c ≠ '/' ∧ c ≠ '?' ∧ c ≠ '#') afterSlashes).1⟩
  | none => ""

/-- Directory part (through the last `/`) of the path of an absolute URL. -/
def urlDirOf (s : String) : String :=
  match splitScheme s with
  | some (_, rest) =>
    let afterSlashes := rest.toList.dropWhile (fun c => c = '/')
    let path := (spanP (fun c => c ≠ '?' ∧ c ≠ '#')
      ((spanP (fun c => c ≠ '/' ∧ c ≠ '?' ∧ c ≠ '#') afterSlashes).2)).1
    if path.contains '/' then ⟨(spanP (fun c => c ≠ '/') path.reverse).2.reverse⟩
    else "/"
  | none => "/"

/-- Model of `new URL(location, currentUrl).href`: absolute targets stand
alone; protocol-relative targets take the base scheme; path-absolute and
path-relative targets resolve against the base origin/directory.  (The
WHATWG serializer's percent-encoding and dot-segment normalization are not
modelled; the handler treats the result opaquely.) -/
def resolveLocation (location currentUrl : String) : String :=
  if (splitScheme location).isSome then location
  else if strStartsWith location "//" then urlSchemeOf currentUrl ++ location
  else if strStartsWith location "/" then urlOriginOf currentUrl ++ location
  else urlOriginOf currentUrl ++ urlDirOf currentUrl ++ location

/-- Result of the manual redirect-following `for` loop. -/
inductive LoopRes where
  | done (resp : UpstreamResponse)
  | thrown (statusCode : Nat) (message : String)
deriving Repr, DecidableEq

/-- The `for (let i = 0; i <= MAX_REDIRECTS; i++)` loop. `fuel` is the number
of iterations still permitted (initially `MAX_REDIRECTS + 1`); one iteration
fetches, breaks on a non-redirect status or a missing `Location`, validates
the resolved redirect target with the guard and the DNS validator before the
next fetch, and throws `400 Redirect to disallowed URL.` when either check
fails.  A fetch that throws surfaces as the outer catch's
`502 Failed to proxy image.`; running out of fuel with the last response
still in hand returns it (`.done`), and the fuel-0 entry case is the
handler's unreachable `!response` check (`502 Failed to fetch image.`). -/
def fetchLoop (w : World) : Nat → String → Trace → LoopRes × Trace
  | 0, _, tr => (.thrown 502 "Failed to fetch image.", tr)
  | fuel + 1, currentUrl, tr =>
    let tr := { tr with fetches := tr.fetches ++ [currentUrl] }
    match w.fetch currentUrl with
    | none => (.thrown 502 "Failed to proxy image.", tr)
    | some resp =>
      if REDIRECT_STATUSES.contains resp.status then
        match resp.location with
        | none => (.done resp, tr)
        | some location =>
          let redirectUrl := resolveLocation location currentUrl
          if !isAllowedImageUrl redirectUrl then
            (.thrown 400 "Redirect to disallowed URL.", tr)
          else
            let rv := resolveAndValidateHostT w.dns redirectUrl
            let tr := { tr with lookups := tr.lookups ++ rv.2 }
            if !rv.1 then (.thrown 400 "Redirect to disallowed URL.", tr)
            else
              match fuel with
              | 0 => (.done resp, tr)
              | _ => fetchLoop w fuel redirectUrl tr
      else (.done resp, tr)

/-- The effective content type:
`response.headers.get('content-type') || 'application/octet-stream'`. -/
def effectiveContentType (resp : UpstreamResponse) : String :=
  match resp.contentType with
  | none => "application/octet-stream"
  | some ct => if ct == "" then "application/octet-stream" else ct

/-- Everything the handler does with the final (post-loop) response:
redirect-limit check, `response.ok` check with 404 passthrough, content-type
policy (must start `image/`, must not contain `svg`), `Content-Length`
pre-check against `MAX_SIZE`, missing-body check, then the committed 200
streaming response. -/
def processResponse (resp : UpstreamResponse) : ProxyOutcome :=
  if REDIRECT_STATUSES.contains resp.status then .error 502 "Too many redirects."
  else if !(decide (200 ≤ resp.status) && decide (resp.status ≤ 299)) then
    .error (if resp.status = 404 then 404 else 502)
      ("Failed to fetch image: " ++ toString resp.status)
  else
    let contentType := effectiveContentType resp
    if !strStartsWith contentType "image/" || strContains contentType "svg" then
      .error 400 "URL does not point to an allowed image type."
    else if (match resp.contentLength with
             | none => false
             | some cl =>
               if cl == "" then false
               else match jsParseIntDec cl with
                    | none => false
                    | some n => (MAX_SIZE : Int) < n) then
      .error 413 "Image too large."
    else
      match resp.body with
      | none => .error 502 "No response body from upstream."
      | some chunks => .stream 200 (effectiveContentType resp) chunks

/-- JS truthiness test for an optional string query parameter (`!x`). -/
def optFalsy : Option String → Bool
  | none => true
  | some s => s == ""

/-- The image-proxy event handler: parameter checks, HMAC verification,
syntactic guard, DNS validation, redirect loop, response processing. -/
def imageProxyHandler (w : World) (urlq sigq : Option String) (secret : String) :
    ProxyOutcome × Trace :=
  if optFalsy urlq then
    (.error 400 "Missing required \"url\" query parameter.", ⟨[], []⟩)
  else if optFalsy sigq then
    (.error 400 "Missing required \"sig\" query parameter.", ⟨[], []⟩)
  else
    let url := urlq.getD ""
    let sig := sigq.getD ""
    if secret == "" || !verifyImageUrl url sig secret then
      (.error 403 "Invalid signature.", ⟨[], []⟩)
    else if !isAllowedImageUrl url then
      (.error 400 "Invalid or disallowed image URL.", ⟨[], []⟩)
    else
      let rv := resolveAndValidateHostT w.dns url
      let tr : Trace := ⟨[], rv.2⟩
      if !rv.1 then (.error 400 "Invalid or disallowed image URL.", tr)
      else
        match fetchLoop w (MAX_REDIRECTS + 1) url tr with
        | (.thrown c m, tr') => (.error c m, tr')
        | (.done resp, tr') => (processResponse resp, tr')

/-! ## The bounded streaming relay

Models the `Readable`-based relay at the end of the handler:

    let bytesRead = 0
    upstream.on('data', chunk => { bytesRead += chunk.length
      if (bytesRead > MAX_SIZE) { upstream.destroy(); limited.destroy(err) }
      else if (!limited.push(chunk)) upstream.pause() })
    upstream.on('end', () => limited.push(null))
    limited.read = () => upstream.resume()

as a nondeterministic step machine.  `pending` holds the upstream chunks not
yet emitted; `paused` is the upstream's flowing/paused flag; `delivered`
counts bytes pushed to the consumer.  A `data` event can fire whenever the
upstream is flowing; the consumer may call `read()` (resuming the upstream)
at any time, and `push`'s return value (the consumer's buffer state) is an
arbitrary boolean of the step — so reachability quantifies over every
consumer read schedule.  `.aborted` is the state after
`upstream.destroy(); limited.destroy(new Error('Image too large'))`: both
streams torn down with a size-limit error, nothing further emitted. -/

inductive RelayStatus where
  | running
  | completedOk
  | aborted
deriving Repr, DecidableEq

structure RelayState where
  pending : List Nat
  bytesRead : Nat
  delivered : Nat
  paused : Bool
  status : RelayStatus
deriving Repr, DecidableEq

/-- Initial relay state for an upstream body. -/
def relayInit (chunks : List Nat) : RelayState :=
  ⟨chunks, 0, 0, false, .running⟩

/-- One event of the relay. -/
inductive RelayStep (maxSize : Nat) : RelayState → RelayState → Prop where
  /-- A `data` event whose chunk keeps the counter within the limit: the
  chunk is pushed; the upstream pauses iff `push` returned `false`. -/
  | emitOk (s : RelayState) (c : Nat) (rest : List Nat) (pushRet : Bool) :
      s.status = .running → s.paused = false → s.pending = c :: rest →
      s.bytesRead + c ≤ maxSize →
      RelayStep maxSize s ⟨rest, s.bytesRead + c, s.delivered + c, !pushRet, .running⟩
  /-- A `data` event that would exceed the limit: both streams are destroyed
  with the size error; the chunk is not pushed. -/
  | emitOver (s : RelayState) (c : Nat) (rest : List Nat) :
      s.status = .running → s.paused = false → s.pending = c :: rest →
      maxSize < s.bytesRead + c →
      RelayStep maxSize s ⟨[], s.bytesRead + c, s.delivered, false, .aborted⟩
  /-- The upstream `end` event after all data: `limited.push(null)`. -/
  | endOk (s : RelayState) :
      s.status = .running → s.paused = false → s.pending = [] →
      RelayStep maxSize s { s with status := .completedOk }
  /-- The consumer calls `read()`: `upstream.resume()`. -/
  | consumerRead (s : RelayState) :
      s.status = .running →
      RelayStep maxSize s { s with paused := false }

/-- All states the relay can reach from a given upstream body, under any
interleaving of data events, consumer reads and push return values. -/
def RelayReach (maxSize : Nat) (chunks : List Nat) (s : RelayState) : Prop :=
  Relation.ReflTransGen (RelayStep maxSize) (relayInit chunks) s

/-- The deterministic run in which the consumer always keeps up
(`push` returns `true` throughout). -/
def relayDrive (maxSize : Nat) (bytesRead delivered : Nat) : List Nat → RelayState
  | [] => ⟨[], bytesRead, delivered, false, .completedOk⟩
  | c :: rest =>
    if bytesRead + c ≤ maxSize then relayDrive maxSize (bytesRead + c) (delivered + c) rest
    else ⟨[], bytesRead + c, delivered, false, .aborted⟩

/-- Final state of the eager run on a whole body. -/
def relayRun (maxSize : Nat) (chunks : List Nat) : RelayState :=
  relayDrive maxSize 0 0 chunks

/-! ## Concrete scenario worlds -/

/-- A world with no reachable network (every fetch and every lookup throws). -/
def emptyWorld : World := ⟨fun _ => none, fun _ => none⟩

/-- A world in which `https://evil.example/a.png` resolves to a public
address but redirects to the loopback address. -/
def c2World : World :=
  { fetch := fun u => if u = "https://evil.example/a.png" then
      some { status := 302, location := some "http://127.0.0.1/admin" } else none,
    dns := fun h => if h = "evil.example" then some ["93.184.216.34"] else none }

/-- A world in which every URL answers `302` to the same allowed URL. -/
def c3World : World :=
  { fetch := fun _ => some { status := 302, location := some "https://r.example/a" },
    dns := fun _ => some ["93.184.216.34"] }

/-- A world serving a valid PNG with no `Content-Length` header whose body
exceeds `MAX_SIZE` by one byte. -/
def c9World : World :=
  { fetch := fun _ =>
      some { status := 200, contentType := some "image/png", body := some [10485761] },
    dns := fun _ => some ["93.184.216.34"] }

/-- A world in which an `http:` URL redirects via a protocol-relative
`Location` header. -/
def c10World : World :=
  { fetch := fun u =>
      if u = "http://a.example/x" then
        some { status := 302, location := some "//b.example/y" }
      else if u = "http://b.example/y" then
        some { status := 200, contentType := some "image/png", body := some [1] }
      else none,
    dns := fun _ => some ["93.184.216.34"] }

/-- Big-endian value of a byte list. -/
def bytesToNat : List Nat → Nat
  | [] => 0
  | b :: t => b * 256 ^ t.length + bytesToNat t

/-- The `n`-th candidate secret: `n+1` copies of `'a'` (all distinct, all
non-empty). -/
def secretOf (n : Nat) : String := ⟨List.replicate (n + 1) 'a'⟩

/-- Inductive invariant of the relay, relative to the total upstream size. -/
def relayInvariant (maxSize total : Nat) (s : RelayState) : Prop :=
  match s.status with
  | .running => s.delivered = s.bytesRead ∧ s.bytesRead ≤ maxSize ∧
      s.bytesRead + s.pending.sum = total
  | .completedOk => s.delivered = total ∧ s.delivered ≤ maxSize
  | .aborted => s.delivered ≤ maxSize ∧ maxSize < total

/-- A network in which every URL answers with a redirect whose target passes
both validations. -/
def AllRedirectWorld (w : World) : Prop :=
  ∀ u : String, ∃ resp loc,
    w.fetch u = some resp ∧ REDIRECT_STATUSES.contains resp.status = true ∧
    resp.location = some loc ∧
    isAllowedImageUrl (resolveLocation loc u) = true ∧
    resolveAndValidateHost w.dns (resolveLocation loc u) = true

/-! ## Helper lemmas: signer/verifier -/

theorem hexOfBytes_length (bs : List Nat) : (hexOfBytes bs).length = 2 * bs.length := by
  induction bs with
  | nil => rfl
  | cons b t ih =>
    simp only [hexOfBytes, List.map_cons, List.flatten_cons] at *
    simp only [String.length] at *
    simp_all
    omega

theorem sha256Bytes_length (m : List Nat) : (sha256Bytes m).length = 32 := by
  simp [sha256Bytes, wordBytes]

theorem wordBytes_mem_lt (w : Nat) : ∀ b ∈ wordBytes w, b < 256 := by
  simp only [wordBytes, List.mem_cons, List.not_mem_nil, or_false]
  rintro b (rfl | rfl | rfl | rfl) <;> omega

theorem sha256Bytes_mem_lt (m : List Nat) : ∀ b ∈ sha256Bytes m, b < 256 := by
  intro b hb
  simp only [sha256Bytes, List.mem_append] at hb
  rcases hb with ((((((h | h) | h) | h) | h) | h) | h) | h <;>
    exact wordBytes_mem_lt _ _ h

theorem hmacSha256_length (key msg : List Nat) : (hmacSha256 key msg).length = 32 := by
  simp [hmacSha256, sha256Bytes_length]

theorem hmacSha256_mem_lt (key msg : List Nat) : ∀ b ∈ hmacSha256 key msg, b < 256 := by
  intro b hb
  simp only [hmacSha256] at hb
  exact sha256Bytes_mem_lt _ b hb

theorem signImageUrl_length (u s : String) : (signImageUrl u s).length = 64 := by
  simp [signImageUrl, hexOfBytes_length, hmacSha256_length]

theorem signImageUrl_beq_empty (u s : String) : (signImageUrl u s == "") = false := by
  cases h : (signImageUrl u s == "") with
  | false => rfl
  | true =>
    have he : signImageUrl u s = "" := eq_of_beq h
    have hlen := signImageUrl_length u s
    rw [he] at hlen
    simp at hlen

theorem verify_sign_roundtrip (u s : String) (hs : s ≠ "") :
    verifyImageUrl u (signImageUrl u s) s = true := by
  have hse : (s == "") = false := beq_eq_false_iff_ne.mpr hs
  simp [verifyImageUrl, signImageUrl_beq_empty, hse]

theorem verify_eq_iff (u s t : String) (ht : t ≠ "") :
    verifyImageUrl u (signImageUrl u s) t = true ↔ signImageUrl u t = signImageUrl u s := by
  have hte : (t == "") = false := beq_eq_false_iff_ne.mpr ht
  constructor
  · intro h
    simp [verifyImageUrl, signImageUrl_beq_empty, hte] at h
    exact h.2
  · intro h
    simp [verifyImageUrl, signImageUrl_beq_empty, hte, h, signImageUrl_length]

theorem signImageUrl_ne_empty (u s : String) : signImageUrl u s ≠ "" := by
  intro h
  have hlen := signImageUrl_length u s
  rw [h] at hlen
  simp at hlen

theorem resolveLocation_absolute (loc cur : String)
    (h : (splitScheme loc).isSome = true) : resolveLocation loc cur = loc := by
  unfold resolveLocation
  rw [h]
  simp

/-! ## Helper lemmas: digest pigeonhole

Distinct secrets can produce the same tag for a fixed URL: the tag space is
finite while the secret space is infinite. -/

theorem bytesToNat_lt (l : List Nat) (h : ∀ b ∈ l, b < 256) :
    bytesToNat l < 256 ^ l.length := by
  induction l with
  | nil => simp [bytesToNat]
  | cons b t ih =>
    have hb : b < 256 := h b (List.mem_cons_self b t)
    have ht := ih (fun x hx => h x (List.mem_cons_of_mem b hx))
    have hX : 0 < 256 ^ t.length := Nat.pos_pow_of_pos _ (by norm_num)
    simp only [bytesToNat, List.length_cons, pow_succ]
    nlinarith

theorem bytesToNat_inj (l1 l2 : List Nat) (hlen : l1.length = l2.length)
    (h1 : ∀ b ∈ l1, b < 256) (h2 : ∀ b ∈ l2, b < 256)
    (heq : bytesToNat l1 = bytesToNat l2) : l1 = l2 := by
  induction l1 generalizing l2 with
  | nil =>
    cases l2 with
    | nil => rfl
    | cons c t => simp at hlen
  | cons b t ih =>
    cases l2 with
    | nil => simp at hlen
    | cons c u =>
      simp only [List.length_cons, Nat.succ.injEq] at hlen
      have hbt := bytesToNat_lt t (fun x hx => h1 x (List.mem_cons_of_mem b hx))
      have hcu := bytesToNat_lt u (fun x hx => h2 x (List.mem_cons_of_mem c hx))
      simp only [bytesToNat, hlen] at heq
      have hbt' : bytesToNat t < 256 ^ u.length := hlen ▸ hbt
      have hb : b = c := by
        rcases Nat.lt_trichotomy b c with h | h | h
        · exfalso
          have hmul : (b + 1) * 256 ^ u.length ≤ c * 256 ^ u.length :=
            mul_le_mul_right' h (256 ^ u.length)
          have hsucc : (b + 1) * 256 ^ u.length = b * 256 ^ u.length + 256 ^ u.length :=
            Nat.succ_mul b _
          omega
        · exact h
        · exfalso
          have hmul : (c + 1) * 256 ^ u.length ≤ b * 256 ^ u.length :=
            mul_le_mul_right' h (256 ^ u.length)
          have hsucc : (c + 1) * 256 ^ u.length = c * 256 ^ u.length + 256 ^ u.length :=
            Nat.succ_mul c _
          omega
      subst hb
      have hmod : bytesToNat t = bytesToNat u := by omega
      have ht := ih u hlen (fun x hx => h1 x (List.mem_cons_of_mem b hx))
        (fun x hx => h2 x (List.mem_cons_of_mem b hx)) hmod
      rw [ht]

/-- For every URL there exist two distinct non-empty secrets with the same
signature (pigeonhole: infinitely many secrets, finitely many tags). -/
theorem sign_collision (u : String) :
    ∃ s t : String, s ≠ "" ∧ t ≠ "" ∧ s ≠ t ∧ signImageUrl u s = signImageUrl u t := by
  classical
  have hbound : ∀ k : Nat,
      bytesToNat (hmacSha256 (utf8Bytes (secretOf k)) (utf8Bytes u)) < 256 ^ 32 := by
    intro k
    have h := bytesToNat_lt (hmacSha256 (utf8Bytes (secretOf k)) (utf8Bytes u))
      (hmacSha256_mem_lt _ _)
    rwa [hmacSha256_length] at h
  obtain ⟨m, n, hmn, hg⟩ := Finite.exists_ne_map_eq_of_infinite
    (fun k : Nat => (⟨bytesToNat (hmacSha256 (utf8Bytes (secretOf k)) (utf8Bytes u)),
      hbound k⟩ : Fin (256 ^ 32)))
  simp only [Fin.mk.injEq] at hg
  refine ⟨secretOf m, secretOf n, ?_, ?_, ?_, ?_⟩
  · intro h
    have : (secretOf m).length = 0 := by rw [h]; rfl
    simp [secretOf, String.length] at this
  · intro h
    have : (secretOf n).length = 0 := by rw [h]; rfl
    simp [secretOf, String.length] at this
  · intro h
    apply hmn
    have : (secretOf m).length = (secretOf n).length := by rw [h]
    simpa [secretOf, String.length] using this
  · have hdig : hmacSha256 (utf8Bytes (secretOf m)) (utf8Bytes u) =
        hmacSha256 (utf8Bytes (secretOf n)) (utf8Bytes u) := by
      apply bytesToNat_inj
      · rw [hmacSha256_length, hmacSha256_length]
      · exact hmacSha256_mem_lt _ _
      · exact hmacSha256_mem_lt _ _
      · exact hg
    simp only [signImageUrl, hdig]

/-! ## Helper lemmas: the streaming relay -/

theorem relayInvariant_init (maxSize : Nat) (chunks : List Nat) :
    relayInvariant maxSize chunks.sum (relayInit chunks) := by
  simp [relayInvariant, relayInit]

theorem relayInvariant_step (maxSize total : Nat) (s s' : RelayState)
    (hstep : RelayStep maxSize s s') (hinv : relayInvariant maxSize total s) :
    relayInvariant maxSize total s' := by
  cases hstep with
  | emitOk c rest pushRet hrun hpause hpend hle =>
    have hinv' : s.delivered = s.bytesRead ∧ s.bytesRead ≤ maxSize ∧
        s.bytesRead + s.pending.sum = total := by
      unfold relayInvariant at hinv
      rwa [hrun] at hinv
    obtain ⟨h1, h2, h3⟩ := hinv'
    rw [hpend, List.sum_cons] at h3
    show s.delivered + c = s.bytesRead + c ∧ s.bytesRead + c ≤ maxSize ∧
        s.bytesRead + c + rest.sum = total
    exact ⟨by omega, hle, by omega⟩
  | emitOver c rest hrun hpause hpend hover =>
    have hinv' : s.delivered = s.bytesRead ∧ s.bytesRead ≤ maxSize ∧
        s.bytesRead + s.pending.sum = total := by
      unfold relayInvariant at hinv
      rwa [hrun] at hinv
    obtain ⟨h1, h2, h3⟩ := hinv'
    rw [hpend, List.sum_cons] at h3
    show s.delivered ≤ maxSize ∧ maxSize < total
    exact ⟨by omega, by omega⟩
  | endOk hrun hpause hpend =>
    have hinv' : s.delivered = s.bytesRead ∧ s.bytesRead ≤ maxSize ∧
        s.bytesRead + s.pending.sum = total := by
      unfold relayInvariant at hinv
      rwa [hrun] at hinv
    obtain ⟨h1, h2, h3⟩ := hinv'
    rw [hpend, List.sum_nil] at h3
    show s.delivered = total ∧ s.delivered ≤ maxSize
    exact ⟨by omega, by omega⟩
  | consumerRead hrun =>
    exact hinv

theorem relayReach_invariant (maxSize : Nat) (chunks : List Nat) (s : RelayState)
    (h : RelayReach maxSize chunks s) :
    relayInvariant maxSize chunks.sum s := by
  induction h with
  | refl => exact relayInvariant_init maxSize chunks
  | tail _ hstep ih => exact relayInvariant_step _ _ _ _ hstep ih

theorem relayReach_delivered_le (maxSize : Nat) (chunks : List Nat) (s : RelayState)
    (h : RelayReach maxSize chunks s) : s.delivered ≤ maxSize := by
  have hinv := relayReach_invariant maxSize chunks s h
  unfold relayInvariant at hinv
  rcases hs : s.status with _ | _ | _
  · rw [hs] at hinv
    have h' : s.delivered = s.bytesRead ∧ s.bytesRead ≤ maxSize ∧
        s.bytesRead + s.pending.sum = chunks.sum := hinv
    omega
  · rw [hs] at hinv
    have h' : s.delivered = chunks.sum ∧ s.delivered ≤ maxSize := hinv
    omega
  · rw [hs] at hinv
    have h' : s.delivered ≤ maxSize ∧ maxSize < chunks.sum := hinv
    omega

theorem relayReach_completed_le (maxSize : Nat) (chunks : List Nat) (s : RelayState)
    (h : RelayReach maxSize chunks s) (hok : s.status = .completedOk) :
    chunks.sum ≤ maxSize := by
  have hinv := relayReach_invariant maxSize chunks s h
  unfold relayInvariant at hinv
  rw [hok] at hinv
  have h' : s.delivered = chunks.sum ∧ s.delivered ≤ maxSize := hinv
  omega

theorem relayDrive_reach (maxSize : Nat) (chunks : List Nat) :
    ∀ bytesRead delivered : Nat,
      Relation.ReflTransGen (RelayStep maxSize)
        ⟨chunks, bytesRead, delivered, false, .running⟩
        (relayDrive maxSize bytesRead delivered chunks) := by
  induction chunks with
  | nil =>
    intro br d
    exact Relation.ReflTransGen.single (RelayStep.endOk _ rfl rfl rfl)
  | cons c rest ih =>
    intro br d
    rw [relayDrive]
    by_cases hle : br + c ≤ maxSize
    · rw [if_pos hle]
      exact Relation.ReflTransGen.head (RelayStep.emitOk _ c rest true rfl rfl rfl hle) (ih _ _)
    · rw [if_neg hle]
      exact Relation.ReflTransGen.single (RelayStep.emitOver _ c rest rfl rfl rfl (show maxSize < br + c by omega))

theorem relayRun_reach (maxSize : Nat) (chunks : List Nat) :
    RelayReach maxSize chunks (relayRun maxSize chunks) :=
  relayDrive_reach maxSize chunks 0 0

theorem relayDrive_aborted (maxSize : Nat) (chunks : List Nat) :
    ∀ bytesRead delivered : Nat, bytesRead ≤ maxSize →
      maxSize < bytesRead + chunks.sum →
      (relayDrive maxSize bytesRead delivered chunks).status = .aborted := by
  induction chunks with
  | nil => intro br d hle hover; simp at hover; omega
  | cons c rest ih =>
    intro br d hle hover
    rw [relayDrive]
    by_cases h : br + c ≤ maxSize
    · rw [if_pos h]
      exact ih _ _ h (by simp only [List.sum_cons] at hover; omega)
    · rw [if_neg h]

theorem relayRun_aborted (maxSize : Nat) (chunks : List Nat)
    (hover : maxSize < chunks.sum) : (relayRun maxSize chunks).status = .aborted :=
  relayDrive_aborted maxSize chunks 0 0 (Nat.zero_le _) (by omega)

/-! ## Helper lemmas: the redirect loop -/

theorem fetchLoop_fetches_length (w : World) :
    ∀ (fuel : Nat) (cur : String) (tr : Trace),
      (fetchLoop w fuel cur tr).2.fetches.length ≤ tr.fetches.length + fuel := by
  intro fuel
  induction fuel with
  | zero => intro cur tr; simp [fetchLoop]
  | succ fuel ih =>
    intro cur tr
    rw [fetchLoop]
    rcases hfetch : w.fetch cur with _ | resp
    · simp
    · simp only []
      by_cases hred : REDIRECT_STATUSES.contains resp.status
      · rw [if_pos hred]
        rcases hloc : resp.location with _ | location
        · simp
        · simp only []
          by_cases hall : isAllowedImageUrl (resolveLocation location cur)
          · rw [hall]
            simp only [Bool.not_true, Bool.false_eq_true, if_false]
            by_cases hrv : (resolveAndValidateHostT w.dns (resolveLocation location cur)).1
            · rw [hrv]
              simp only [Bool.not_true, Bool.false_eq_true, if_false]
              cases fuel with
              | zero => simp
              | succ n =>
                have := ih (resolveLocation location cur)
                  ⟨tr.fetches ++ [cur], tr.lookups ++ (resolveAndValidateHostT w.dns (resolveLocation location cur)).2⟩
                simp only [List.length_append, List.length_cons, List.length_nil] at this ⊢
                omega
            · rw [Bool.not_eq_true] at hrv
              rw [hrv]
              simp
          · rw [Bool.not_eq_true] at hall
            rw [hall]
            simp
      · rw [if_neg hred]
        simp

theorem fetchLoop_fetches_validated (w : World) :
    ∀ (fuel : Nat) (cur : String) (tr : Trace),
      isAllowedImageUrl cur = true → resolveAndValidateHost w.dns cur = true →
      (∀ u ∈ tr.fetches, isAllowedImageUrl u = true ∧ resolveAndValidateHost w.dns u = true) →
      ∀ u ∈ (fetchLoop w fuel cur tr).2.fetches,
        isAllowedImageUrl u = true ∧ resolveAndValidateHost w.dns u = true := by
  intro fuel
  induction fuel with
  | zero => intro cur tr _ _ htr; simpa [fetchLoop] using htr
  | succ fuel ih =>
    intro cur tr hcur1 hcur2 htr
    have htr1 : ∀ u ∈ tr.fetches ++ [cur],
        isAllowedImageUrl u = true ∧ resolveAndValidateHost w.dns u = true := by
      intro u hu
      rcases List.mem_append.mp hu with h | h
      · exact htr u h
      · rcases List.mem_singleton.mp h with rfl
        exact ⟨hcur1, hcur2⟩
    rw [fetchLoop]
    rcases hfetch : w.fetch cur with _ | resp
    · simpa using htr1
    · simp only []
      by_cases hred : REDIRECT_STATUSES.contains resp.status
      · rw [if_pos hred]
        rcases hloc : resp.location with _ | location
        · simpa using htr1
        · simp only []
          by_cases hall : isAllowedImageUrl (resolveLocation location cur)
          · rw [hall]
            simp only [Bool.not_true, Bool.false_eq_true, if_false]
            by_cases hrv : (resolveAndValidateHostT w.dns (resolveLocation location cur)).1
            · rw [hrv]
              simp only [Bool.not_true, Bool.false_eq_true, if_false]
              cases fuel with
              | zero => simpa using htr1
              | succ n =>
                exact ih (resolveLocation location cur) _ hall hrv htr1
            · rw [Bool.not_eq_true] at hrv
              rw [hrv]
              simpa using htr1
          · rw [Bool.not_eq_true] at hall
            rw [hall]
            simpa using htr1
      · rw [if_neg hred]
        simpa using htr1

theorem fetchLoop_allRedirect (w : World) (hw : AllRedirectWorld w) :
    ∀ (fuel : Nat) (cur : String) (tr : Trace), 0 < fuel →
      ∃ resp, (fetchLoop w fuel cur tr).1 = .done resp ∧
        REDIRECT_STATUSES.contains resp.status = true ∧
        (fetchLoop w fuel cur tr).2.fetches.length = tr.fetches.length + fuel := by
  intro fuel
  induction fuel with
  | zero => intro cur tr h; omega
  | succ fuel ih =>
    intro cur tr _
    obtain ⟨resp, loc, hfetch, hred, hloc, hall, hrv⟩ := hw cur
    rw [fetchLoop, hfetch]
    simp only []
    rw [if_pos hred, hloc]
    simp only []
    rw [hall]
    simp only [Bool.not_true, Bool.false_eq_true, if_false]
    rw [show (resolveAndValidateHostT w.dns (resolveLocation loc cur)).1 = true from hrv]
    simp only [Bool.not_true, Bool.false_eq_true, if_false]
    cases fuel with
    | zero => exact ⟨resp, rfl, hred, by simp⟩
    | succ n =>
      simp only []
      obtain ⟨r, h1, h2, h3⟩ := ih (resolveLocation loc cur) _ (Nat.succ_pos n)
      refine ⟨r, h1, h2, ?_⟩
      rw [h3]
      simp only [List.length_append, List.length_cons, List.length_nil]
      omega


/-! ## Helper lemmas: the event handler -/

/-- Reduction of the handler to the redirect loop once every pre-flight
check passes. -/
theorem imageProxyHandler_main (w : World) (url sig secret : String)
    (hurl : url ≠ "") (hsig : sig ≠ "") (hsec : secret ≠ "")
    (hv : verifyImageUrl url sig secret = true)
    (hall : isAllowedImageUrl url = true)
    (hrv : resolveAndValidateHost w.dns url = true) :
    imageProxyHandler w (some url) (some sig) secret =
      (match fetchLoop w (MAX_REDIRECTS + 1) url
          ⟨[], (resolveAndValidateHostT w.dns url).2⟩ with
       | (.thrown c m, tr') => (.error c m, tr')
       | (.done resp, tr') => (processResponse resp, tr')) := by
  have h1 : (url == "") = false := beq_eq_false_iff_ne.mpr hurl
  have h2 : (sig == "") = false := beq_eq_false_iff_ne.mpr hsig
  have h3 : (secret == "") = false := beq_eq_false_iff_ne.mpr hsec
  have h4 : (resolveAndValidateHostT w.dns url).1 = true := hrv
  simp only [imageProxyHandler, optFalsy, h1, h2, h3, hv, hall, h4, Option.getD_some,
    Bool.not_true, Bool.or_false, Bool.false_eq_true, if_false, Bool.false_or]

theorem handler_fetches_validated (w : World) (urlq sigq : Option String) (secret : String) :
    ∀ u ∈ (imageProxyHandler w urlq sigq secret).2.fetches,
      isAllowedImageUrl u = true ∧ resolveAndValidateHost w.dns u = true := by
  intro u hu
  unfold imageProxyHandler at hu
  split at hu
  · simp [Trace.fetches] at hu
  · split at hu
    · simp [Trace.fetches] at hu
    · simp only [] at hu
      split at hu
      · simp [Trace.fetches] at hu
      · split at hu
        · simp [Trace.fetches] at hu
        · split at hu
          · simp [Trace.fetches] at hu
          · rename_i hfalsy1 hfalsy2 hver hall hrv
            split at hu
            · rename_i c m tr' heq
              have hall' : isAllowedImageUrl (urlq.getD "") = true := by
                rw [Bool.not_eq_true] at hall
                simpa using hall
              have hrv' : resolveAndValidateHost w.dns (urlq.getD "") = true := by
                rw [Bool.not_eq_true] at hrv
                simpa using hrv
              have := fetchLoop_fetches_validated w (MAX_REDIRECTS + 1) (urlq.getD "")
                ⟨[], (resolveAndValidateHostT w.dns (urlq.getD "")).2⟩ hall' hrv'
                (by intro x hx; simp [Trace.fetches] at hx) u
              apply this
              rw [heq]
              simpa using hu
            · rename_i resp tr' heq
              have hall' : isAllowedImageUrl (urlq.getD "") = true := by
                rw [Bool.not_eq_true] at hall
                simpa using hall
              have hrv' : resolveAndValidateHost w.dns (urlq.getD "") = true := by
                rw [Bool.not_eq_true] at hrv
                simpa using hrv
              have := fetchLoop_fetches_validated w (MAX_REDIRECTS + 1) (urlq.getD "")
                ⟨[], (resolveAndValidateHostT w.dns (urlq.getD "")).2⟩ hall' hrv'
                (by intro x hx; simp [Trace.fetches] at hx) u
              apply this
              rw [heq]
              simpa using hu

theorem handler_fetches_bounded (w : World) (urlq sigq : Option String) (secret : String) :
    (imageProxyHandler w urlq sigq secret).2.fetches.length ≤ MAX_REDIRECTS + 1 := by
  unfold imageProxyHandler
  split
  · simp [Trace.fetches]
  · split
    · simp [Trace.fetches]
    · simp only []
      split
      · simp [Trace.fetches]
      · split
        · simp [Trace.fetches]
        · split
          · simp [Trace.fetches]
          · split
            · rename_i c m tr' heq
              have := fetchLoop_fetches_length w (MAX_REDIRECTS + 1) (urlq.getD "")
                ⟨[], (resolveAndValidateHostT w.dns (urlq.getD "")).2⟩
              rw [heq] at this
              simpa [Trace.fetches] using this
            · rename_i resp tr' heq
              have := fetchLoop_fetches_length w (MAX_REDIRECTS + 1) (urlq.getD "")
                ⟨[], (resolveAndValidateHostT w.dns (urlq.getD "")).2⟩
              rw [heq] at this
              simpa [Trace.fetches] using this

theorem handler_too_many_redirects (w : World) (url sig secret : String) (hw : AllRedirectWorld w)
    (hurl : url ≠ "") (hsig : sig ≠ "") (hsec : secret ≠ "")
    (hv : verifyImageUrl url sig secret = true)
    (hall : isAllowedImageUrl url = true)
    (hrv : resolveAndValidateHost w.dns url = true) :
    ∃ tr : Trace, imageProxyHandler w (some url) (some sig) secret =
        (.error 502 "Too many redirects.", tr) ∧
      tr.fetches.length = MAX_REDIRECTS + 1 := by
  rw [imageProxyHandler_main w url sig secret hurl hsig hsec hv hall hrv]
  obtain ⟨resp, hdone, hred, hlen⟩ := fetchLoop_allRedirect w hw (MAX_REDIRECTS + 1) url
    ⟨[], (resolveAndValidateHostT w.dns url).2⟩ (by omega)
  rcases hfl : fetchLoop w (MAX_REDIRECTS + 1) url ⟨[], (resolveAndValidateHostT w.dns url).2⟩
    with ⟨res, tr'⟩
  rw [hfl] at hdone hlen
  simp only [] at hdone
  subst hdone
  refine ⟨tr', ?_, ?_⟩
  · simp only [processResponse, hred]
    rfl
  · simpa [Trace.fetches] using hlen

theorem resolveAndValidateHost_fails_closed :
    ∀ (dns : String → Option (List String)) (url : String) (p : ParsedUrl),
      URLparse url = some p → p.hostname ≠ "" →
      ipaddrIsValid (unbracket (strToLower p.hostname)) = false →
      (dns (strToLower p.hostname) = none → resolveAndValidateHost dns url = false) ∧
      (dns (strToLower p.hostname) = some [] → resolveAndValidateHost dns url = false) ∧
      (∀ results, dns (strToLower p.hostname) = some results →
        (∃ r ∈ results, isPrivateIP r = true) → resolveAndValidateHost dns url = false) ∧
      (resolveAndValidateHost dns url = true →
        ∃ results, dns (strToLower p.hostname) = some results ∧ results ≠ [] ∧
          ∀ r ∈ results, isPrivateIP r = false) := by
  intro dns url p hp hne hnip
  unfold resolveAndValidateHost resolveAndValidateHostT
  rw [hp]
  simp only [hne, if_false, hnip, Bool.false_eq_true, reduceIte]
  refine ⟨?_, ?_, ?_, ?_⟩
  · intro h; rw [h]
  · intro h; rw [h]; rfl
  · intro results h hex
    rw [h]
    simp only []
    obtain ⟨r, hr, hpriv⟩ := hex
    by_cases hlen : results.length = 0
    · rw [if_pos hlen]
    · rw [if_neg hlen]
      simp only []
      cases hall : results.all (fun r => !isPrivateIP r) with
      | false => rfl
      | true =>
        have := List.all_eq_true.mp hall r hr
        rw [hpriv] at this
        simp at this
  · intro h
    rcases hdns : dns (strToLower p.hostname) with _ | results
    · rw [hdns] at h; simp at h
    · rw [hdns] at h
      simp only [] at h
      by_cases hlen : results.length = 0
      · rw [if_pos hlen] at h; simp at h
      · rw [if_neg hlen] at h
        simp only [] at h
        refine ⟨results, rfl, by intro hnil; rw [hnil] at hlen; simp at hlen, ?_⟩
        intro r hr
        have := List.all_eq_true.mp h r hr
        simpa using this

theorem notPrivate_unicast :
    ∀ ip : String, isPrivateIP ip = false → ipaddrIsValid (unbracket ip) = true →
      ipRangeOf (unbracket ip) = some "unicast" := by
  intro ip hpriv hvalid
  unfold isPrivateIP at hpriv
  simp only [] at hpriv
  unfold ipaddrIsValid at hvalid
  rcases h : ipRangeOf (unbracket ip) with _ | r
  · rw [h] at hvalid; simp at hvalid
  · rw [h] at hpriv
    simp only [bne_eq_false_iff_eq] at hpriv
    rw [hpriv]

theorem isAllowedImageUrl_characterization :
    ∀ url : String, isAllowedImageUrl url = true →
      ∃ p, URLparse url = some p ∧
        (p.protocol = "http:" ∨ p.protocol = "https:") ∧
        strToLower p.hostname ≠ "" ∧
        strToLower p.hostname ≠ "localhost" ∧
        strEndsWith (strToLower p.hostname) ".local" = false ∧
        strEndsWith (strToLower p.hostname) ".internal" = false ∧
        isPrivateIP (strToLower p.hostname) = false := by
  intro url h
  unfold isAllowedImageUrl at h
  rcases hp : URLparse url with _ | parsed
  · rw [hp] at h; simp at h
  · rw [hp] at h
    refine ⟨parsed, rfl, ?_⟩
    split at h
    · simp at h
    · rename_i parsed2 heq
      injection heq with heq2
      subst heq2
      split at h
      · simp at h
      · rename_i hprot
        simp only [] at h
        split at h
        · simp at h
        · rename_i hne
          split at h
          · simp at h
          · rename_i hloc
            split at h
            · simp at h
            · rename_i hpriv
              have hprot' : parsed.protocol = "http:" ∨ parsed.protocol = "https:" := by
                by_cases h1 : parsed.protocol = "http:"
                · exact Or.inl h1
                · by_cases h2 : parsed.protocol = "https:"
                  · exact Or.inr h2
                  · exact absurd ⟨h1, h2⟩ hprot
              refine ⟨hprot', hne, ?_, ?_, ?_, ?_⟩
              · intro heq; exact hloc (Or.inl heq)
              · by_cases h1 : strEndsWith (strToLower parsed.hostname) ".local" = true
                · exact absurd (Or.inr (Or.inl h1)) hloc
                · simpa using h1
              · by_cases h1 : strEndsWith (strToLower parsed.hostname) ".internal" = true
                · exact absurd (Or.inr (Or.inr h1)) hloc
                · simpa using h1
              · simpa using hpriv

theorem processResponse_content_policy :
    ∀ resp : UpstreamResponse,
      REDIRECT_STATUSES.contains resp.status = false →
      200 ≤ resp.status → resp.status ≤ 299 →
      ((strStartsWith (effectiveContentType resp) "image/" = false ∨
          strContains (effectiveContentType resp) "svg" = true) →
        processResponse resp = .error 400 "URL does not point to an allowed image type.") ∧
      (∀ st ct body, processResponse resp = .stream st ct body →
        strStartsWith ct "image/" = true ∧ strContains ct "svg" = false) := by
  intro resp hred h200 h299
  have hok : (!(decide (200 ≤ resp.status) && decide (resp.status ≤ 299))) = false := by
    simp [h200, h299]
  unfold processResponse
  rw [hred]
  simp only [Bool.false_eq_true, if_false, reduceIte, hok]
  constructor
  · intro hbad
    rcases hbad with hbad | hbad
    · rw [hbad]
      simp
    · rw [hbad]
      simp
  · intro st ct body heq
    by_cases hct : (!strStartsWith (effectiveContentType resp) "image/" ||
        strContains (effectiveContentType resp) "svg") = true
    · rw [if_pos hct] at heq
      simp at heq
    · rw [if_neg hct] at heq
      rw [Bool.not_eq_true, Bool.or_eq_false_iff] at hct
      obtain ⟨hct1, hct2⟩ := hct
      have hct1' : strStartsWith (effectiveContentType resp) "image/" = true := by
        simpa using hct1
      split at heq
      · simp at heq
      · split at heq
        · simp at heq
        · rename_i chunks hbody
          injection heq with e1 e2 e3
          subst e2
          exact ⟨hct1', hct2⟩

theorem processResponse_declared_oversize :
    ∀ (resp : UpstreamResponse) (cl : String) (n : Int),
      REDIRECT_STATUSES.contains resp.status = false →
      200 ≤ resp.status → resp.status ≤ 299 →
      strStartsWith (effectiveContentType resp) "image/" = true →
      strContains (effectiveContentType resp) "svg" = false →
      resp.contentLength = some cl → (cl == "") = false →
      jsParseIntDec cl = some n → (MAX_SIZE : Int) < n →
      processResponse resp = .error 413 "Image too large." := by
  intro resp cl n hred h200 h299 hct1 hct2 hcl hclne hparse hover
  have hok : (!(decide (200 ≤ resp.status) && decide (resp.status ≤ 299))) = false := by
    simp [h200, h299]
  unfold processResponse
  rw [hred]
  simp only [Bool.false_eq_true, if_false, reduceIte, hok]
  rw [hct1, hct2]
  simp only [Bool.not_true, Bool.or_false, Bool.false_eq_true, if_false, reduceIte]
  rw [hcl]
  simp only [hclne, Bool.false_eq_true, if_false, reduceIte, hparse]
  simp [hover]

theorem strStartsWith_slashslash {s : String} (h : strStartsWith s "//" = true) :
    ∃ rest, s.toList = '/' :: '/' :: rest := by
  unfold strStartsWith at h
  rw [show ("//" : String).toList = ['/', '/'] from rfl] at h
  rcases hl : s.toList with _ | ⟨c, l⟩
  · rw [hl] at h; simp [List.isPrefixOf] at h
  · rcases l with _ | ⟨c2, l2⟩
    · rw [hl] at h; simp [List.isPrefixOf] at h
    · rw [hl] at h
      simp only [List.isPrefixOf, Bool.and_eq_true, beq_iff_eq] at h
      obtain ⟨e1, e2, _⟩ := h
      exact ⟨l2, by rw [← e1, ← e2]⟩

theorem resolveLocation_protocol_relative (loc cur : String)
    (h : strStartsWith loc "//" = true) :
    resolveLocation loc cur = urlSchemeOf cur ++ loc := by
  obtain ⟨rest, hdata⟩ := strStartsWith_slashslash h
  have hscheme : splitScheme loc = none := by
    unfold splitScheme
    rw [hdata]
    simp only [spanP]
    simp only [ne_eq, decide_not]
    simp [spanP]
    split <;> rfl
  unfold resolveLocation
  rw [hscheme]
  simp only [Option.isSome_none, Bool.false_eq_true, if_false, reduceIte]
  rw [h]
  simp

theorem toProxied_protocol_relative (url secret : String)
    (h : strStartsWith url "//" = true) :
    toProxiedImageUrl url secret = toProxiedImageUrlAux ("https:" ++ url) url secret := by
  obtain ⟨rest, hdata⟩ := strStartsWith_slashslash h
  have h0 : (url == "") = false := by
    rw [beq_eq_false_iff_ne]
    intro he
    rw [he] at hdata
    simp at hdata
  have h1 : strStartsWith url "#" = false := by
    unfold strStartsWith
    rw [hdata, show ("#" : String).toList = ['#'] from rfl]
    simp [List.isPrefixOf]
  have h2 : strStartsWith url "data:" = false := by
    unfold strStartsWith
    rw [hdata, show ("data:" : String).toList = ['d', 'a', 't', 'a', ':'] from rfl]
    simp [List.isPrefixOf]
  have h3 : normalizeProtocolRelative url = "https:" ++ url := by
    unfold normalizeProtocolRelative
    rw [h]
    simp
  unfold toProxiedImageUrl
  rw [h0, h1, h2, h3]
  simp


/-! ## The claims -/

/-- Claim C1: For every upstream response body and every consumer read
schedule, the streaming relay delivers at most `MAX_SIZE` bytes to the
caller; a run can end in `completedOk` only when the whole body fits within
the limit; and whenever the cumulative bytes read would exceed the limit the
relay reaches the `.aborted` state — both the upstream stream and the
outbound stream destroyed with the size-limit error — rather than ending
the outbound stream as a success.  Reachability (`RelayReach`) quantifies
over every interleaving of data events, consumer `read()` calls and `push`
return values, i.e. every consumer read schedule. -/
theorem claim_C1_streaming_relay_bounded :
    (∀ (chunks : List Nat) (s : RelayState), RelayReach MAX_SIZE chunks s →
      s.delivered ≤ MAX_SIZE ∧ (s.status = .completedOk → chunks.sum ≤ MAX_SIZE)) ∧
    (∀ chunks : List Nat, MAX_SIZE < chunks.sum →
      RelayReach MAX_SIZE chunks (relayRun MAX_SIZE chunks) ∧
      (relayRun MAX_SIZE chunks).status = .aborted) := by
  constructor
  · intro chunks s h
    exact ⟨relayReach_delivered_le _ _ _ h,
      fun hok => relayReach_completed_le _ _ _ h hok⟩
  · intro chunks hover
    exact ⟨relayRun_reach _ _, relayRun_aborted _ _ hover⟩

theorem claim_C1_witness :
    (relayInit [3]).delivered ≤ MAX_SIZE ∧
    (relayRun MAX_SIZE [10485761]).status = .aborted :=
  ⟨(claim_C1_streaming_relay_bounded.1 [3] _ Relation.ReflTransGen.refl).1,
   (claim_C1_streaming_relay_bounded.2 [10485761] (by decide)).2⟩

/-- Claim C2: Every URL the handler ever fetches (the original and every
redirect target) has passed `isAllowedImageUrl` and `resolveAndValidateHost`
— redirect targets are validated before any request is issued to them.  In
the concrete scenario, `https://evil.example/a.png` redirecting to
`http://127.0.0.1/admin` fails with the disallowed-redirect error and the
fetch trace contains only the original URL: no connection to the loopback
address is ever attempted. -/
theorem claim_C2_redirects_validated_before_fetch :
    (∀ (w : World) (urlq sigq : Option String) (secret : String),
      ∀ u ∈ (imageProxyHandler w urlq sigq secret).2.fetches,
        isAllowedImageUrl u = true ∧ resolveAndValidateHost w.dns u = true) ∧
    imageProxyHandler c2World (some "https://evil.example/a.png")
        (some (signImageUrl "https://evil.example/a.png" "proxy-secret")) "proxy-secret" =
      (.error 400 "Redirect to disallowed URL.",
        ⟨["https://evil.example/a.png"], ["evil.example"]⟩) := by
  constructor
  · exact handler_fetches_validated
  · have hv := verify_sign_roundtrip "https://evil.example/a.png" "proxy-secret" (by decide)
    simp only [imageProxyHandler, optFalsy, signImageUrl_beq_empty, hv, Option.getD_some]
    decide

theorem claim_C2_witness :
    isAllowedImageUrl "https://evil.example/a.png" = true ∧
    resolveAndValidateHost c2World.dns "https://evil.example/a.png" = true :=
  claim_C2_redirects_validated_before_fetch.1 c2World
    (some "https://evil.example/a.png")
    (some (signImageUrl "https://evil.example/a.png" "proxy-secret")) "proxy-secret"
    "https://evil.example/a.png"
    (by rw [claim_C2_redirects_validated_before_fetch.2]; decide)

/-- Claim C3: The redirect loop issues at most `MAX_REDIRECTS + 1` fetches on
every run, and a chain of valid redirects longer than `MAX_REDIRECTS`
terminates with the distinct `502 Too many redirects.` failure after exactly
`MAX_REDIRECTS + 1` fetches — never an infinite loop, never a silently
truncated follow. -/
theorem claim_C3_redirect_loop_bounded :
    (∀ (w : World) (urlq sigq : Option String) (secret : String),
      (imageProxyHandler w urlq sigq secret).2.fetches.length ≤ MAX_REDIRECTS + 1) ∧
    (∀ (w : World) (url sig secret : String), AllRedirectWorld w →
      url ≠ "" → sig ≠ "" → secret ≠ "" →
      verifyImageUrl url sig secret = true →
      isAllowedImageUrl url = true →
      resolveAndValidateHost w.dns url = true →
      ∃ tr : Trace, imageProxyHandler w (some url) (some sig) secret =
          (.error 502 "Too many redirects.", tr) ∧
        tr.fetches.length = MAX_REDIRECTS + 1) :=
  ⟨handler_fetches_bounded, fun w url sig secret hw h1 h2 h3 h4 h5 h6 =>
    handler_too_many_redirects w url sig secret hw h1 h2 h3 h4 h5 h6⟩

theorem claim_C3_witness :
    ((imageProxyHandler emptyWorld none none "").2.fetches.length ≤ MAX_REDIRECTS + 1) ∧
    ∃ tr : Trace, imageProxyHandler c3World (some "https://r.example/a")
        (some (signImageUrl "https://r.example/a" "k")) "k" =
        (.error 502 "Too many redirects.", tr) ∧
      tr.fetches.length = MAX_REDIRECTS + 1 :=
  ⟨claim_C3_redirect_loop_bounded.1 emptyWorld none none "",
   claim_C3_redirect_loop_bounded.2 c3World "https://r.example/a"
    (signImageUrl "https://r.example/a" "k") "k"
    (fun u => ⟨{ status := 302, location := some "https://r.example/a" },
      "https://r.example/a", rfl, by decide, rfl,
      by rw [resolveLocation_absolute "https://r.example/a" u (by decide)]; decide,
      by rw [resolveLocation_absolute "https://r.example/a" u (by decide)]; decide⟩)
    (by decide) (signImageUrl_ne_empty _ _) (by decide)
    (verify_sign_roundtrip "https://r.example/a" "k" (by decide))
    (by decide) (by decide)⟩

/-- Claim C4: `resolveAndValidateHost` fails closed.  For a non-IP-literal
hostname: a lookup that throws, an empty answer set, or an answer containing
at least one private address (even alongside public ones) all yield `false`,
and a `true` verdict requires a non-empty answer in which every address is
non-private; a non-private valid address classifies as `unicast` under the
`ipaddr.js` range classifier. -/
theorem claim_C4_resolver_fails_closed :
    (∀ (dns : String → Option (List String)) (url : String) (p : ParsedUrl),
      URLparse url = some p → p.hostname ≠ "" →
      ipaddrIsValid (unbracket (strToLower p.hostname)) = false →
      (dns (strToLower p.hostname) = none → resolveAndValidateHost dns url = false) ∧
      (dns (strToLower p.hostname) = some [] → resolveAndValidateHost dns url = false) ∧
      (∀ results, dns (strToLower p.hostname) = some results →
        (∃ r ∈ results, isPrivateIP r = true) → resolveAndValidateHost dns url = false) ∧
      (resolveAndValidateHost dns url = true →
        ∃ results, dns (strToLower p.hostname) = some results ∧ results ≠ [] ∧
          ∀ r ∈ results, isPrivateIP r = false)) ∧
    (∀ ip : String, isPrivateIP ip = false → ipaddrIsValid (unbracket ip) = true →
      ipRangeOf (unbracket ip) = some "unicast") :=
  ⟨resolveAndValidateHost_fails_closed, notPrivate_unicast⟩

theorem claim_C4_witness :
    resolveAndValidateHost (fun _ => none) "https://host.example/a" = false ∧
    resolveAndValidateHost (fun _ => some ["93.184.216.34", "10.0.0.5"])
      "https://host.example/a" = false ∧
    ipRangeOf (unbracket "93.184.216.34") = some "unicast" :=
  ⟨(claim_C4_resolver_fails_closed.1 (fun _ => none) "https://host.example/a"
      ⟨"https:", "host.example"⟩ (by decide) (by decide) (by decide)).1 rfl,
   (claim_C4_resolver_fails_closed.1 (fun _ => some ["93.184.216.34", "10.0.0.5"])
      "https://host.example/a" ⟨"https:", "host.example"⟩
      (by decide) (by decide) (by decide)).2.2.1 ["93.184.216.34", "10.0.0.5"] rfl
      ⟨"10.0.0.5", by decide, by decide⟩,
   claim_C4_resolver_fails_closed.2 "93.184.216.34" (by decide) (by decide)⟩

/-- Claim C5 counterexample: The claim "for every URL `u` and secret `s`,
`verify(u, sign(u, s), s)` returns true" fails at the empty secret:
`verifyImageUrl` treats a falsy secret as verification failure (as §4.1 of
the spec itself requires), so the round-trip with `s = ""` returns `false`. -/
theorem claim_C5_counterexample :
    verifyImageUrl "https://example.com/a.png"
      (signImageUrl "https://example.com/a.png" "") "" = false := by
  simp [verifyImageUrl]

/-- Claim C5 amended: For every URL `u` and *non-empty* secret `s`,
`verify(u, sign(u, s), s)` returns true.  Verification of `sign(u, s)` under
a non-empty secret `t` succeeds exactly when the two secrets produce the
same tag; distinct secrets with the same tag exist for every URL
(pigeonhole: infinitely many secrets, finitely many 256-bit tags), so
"`verify(u, sign(u, s), s') = false` for every `s' ≠ s`" is not a theorem —
it holds only with overwhelming probability, as the spec's §8 itself
phrases the sign-distinctness property. -/
theorem claim_C5_sign_verify_roundtrip :
    (∀ u s : String, s ≠ "" → verifyImageUrl u (signImageUrl u s) s = true) ∧
    (∀ u s t : String, t ≠ "" →
      (verifyImageUrl u (signImageUrl u s) t = true ↔
        signImageUrl u t = signImageUrl u s)) ∧
    (∀ u : String, ∃ s t : String, s ≠ "" ∧ t ≠ "" ∧ s ≠ t ∧
      verifyImageUrl u (signImageUrl u s) t = true) := by
  refine ⟨fun u s hs => verify_sign_roundtrip u s hs,
          fun u s t ht => verify_eq_iff u s t ht, fun u => ?_⟩
  obtain ⟨s, t, hs, ht, hst, heq⟩ := sign_collision u
  exact ⟨s, t, hs, ht, hst, (verify_eq_iff u s t ht).mpr heq.symm⟩

theorem claim_C5_witness :
    verifyImageUrl "https://example.com/a.png"
      (signImageUrl "https://example.com/a.png" "k1") "k1" = true ∧
    (verifyImageUrl "https://example.com/a.png"
        (signImageUrl "https://example.com/a.png" "k1") "k2" = true ↔
      signImageUrl "https://example.com/a.png" "k2" =
        signImageUrl "https://example.com/a.png" "k1") :=
  ⟨claim_C5_sign_verify_roundtrip.1 "https://example.com/a.png" "k1" (by decide),
   claim_C5_sign_verify_roundtrip.2.1 "https://example.com/a.png" "k1" "k2" (by decide)⟩

/-- Claim C6 counterexample: The claim says every verification failure
(including a missing signature) rejects with an *authorization* error; the
spec's own interface table (§6) maps authorization failure to 403.  A
request with the `sig` parameter missing is rejected with the
`400 Missing required "sig" query parameter.` invalid-request error, not
403 — though still with an empty trace, before any network I/O. -/
theorem claim_C6_counterexample :
    imageProxyHandler emptyWorld (some "https://example.com/a.png") none "k" =
      (.error 400 "Missing required \"sig\" query parameter.", ⟨[], []⟩) ∧
    statusCodeOf (imageProxyHandler emptyWorld
      (some "https://example.com/a.png") none "k").1 ≠ 403 := by
  constructor <;> decide

/-- Claim C6 amended: With the `url` parameter present: a missing/empty
`sig` parameter rejects with the 400 invalid-request error, and a present
signature that fails verification (missing secret or tag mismatch) rejects
with the 403 authorization error.  In every case the result carries an
empty trace — no DNS lookup and no fetch was performed — and the outcome is
fixed independently of the URL Policy Guard's verdict, i.e. signature
checking precedes the guard in real time order. -/
theorem claim_C6_reject_before_network_use :
    ∀ (w : World) (urlq sigq : Option String) (secret : String),
      optFalsy urlq = false →
      (optFalsy sigq = true →
        imageProxyHandler w urlq sigq secret =
          (.error 400 "Missing required \"sig\" query parameter.", ⟨[], []⟩)) ∧
      (optFalsy sigq = false →
        (secret = "" ∨ verifyImageUrl (urlq.getD "") (sigq.getD "") secret = false) →
        imageProxyHandler w urlq sigq secret =
          (.error 403 "Invalid signature.", ⟨[], []⟩)) := by
  intro w urlq sigq secret hurl
  constructor
  · intro hsig
    unfold imageProxyHandler
    rw [hurl, hsig]
    simp
  · intro hsig hbad
    unfold imageProxyHandler
    rw [hurl, hsig]
    simp only [Bool.false_eq_true, if_false, reduceIte]
    rcases hbad with hbad | hbad
    · subst hbad
      simp
    · rw [hbad]
      simp

theorem claim_C6_witness :
    imageProxyHandler emptyWorld (some "https://x.example/i.png") none "k" =
      (.error 400 "Missing required \"sig\" query parameter.", ⟨[], []⟩) ∧
    imageProxyHandler emptyWorld (some "https://x.example/i.png") (some "deadbeef") "" =
      (.error 403 "Invalid signature.", ⟨[], []⟩) :=
  ⟨(claim_C6_reject_before_network_use emptyWorld (some "https://x.example/i.png")
      none "k" (by decide)).1 rfl,
   (claim_C6_reject_before_network_use emptyWorld (some "https://x.example/i.png")
      (some "deadbeef") "" (by decide)).2 (by decide) (Or.inl rfl)⟩

/-- Claim C7: `isAllowedImageUrl` returns true only when the URL parses, the
scheme is exactly `http:` or `https:`, the hostname is present, not
`localhost`, not suffixed `.local` or `.internal`, and not a private IP
literal (a non-private valid literal classifies as `unicast`, see C4's
second conjunct); and the three concrete examples from the spec evaluate as
stated. -/
theorem claim_C7_url_policy_guard :
    (∀ url : String, isAllowedImageUrl url = true →
      ∃ p, URLparse url = some p ∧
        (p.protocol = "http:" ∨ p.protocol = "https:") ∧
        strToLower p.hostname ≠ "" ∧
        strToLower p.hostname ≠ "localhost" ∧
        strEndsWith (strToLower p.hostname) ".local" = false ∧
        strEndsWith (strToLower p.hostname) ".internal" = false ∧
        isPrivateIP (strToLower p.hostname) = false) ∧
    isAllowedImageUrl "http://169.254.169.254/x" = false ∧
    isAllowedImageUrl "https://example.com/x.png" = true ∧
    isAllowedImageUrl "ftp://example.com/x" = false :=
  ⟨isAllowedImageUrl_characterization, by decide, by decide, by decide⟩

theorem claim_C7_witness :
    ∃ p, URLparse "https://example.com/x.png" = some p ∧
      (p.protocol = "http:" ∨ p.protocol = "https:") ∧
      strToLower p.hostname ≠ "" ∧
      strToLower p.hostname ≠ "localhost" ∧
      strEndsWith (strToLower p.hostname) ".local" = false ∧
      strEndsWith (strToLower p.hostname) ".internal" = false ∧
      isPrivateIP (strToLower p.hostname) = false :=
  claim_C7_url_policy_guard.1 "https://example.com/x.png" (by decide)

/-- Claim C8: For every terminal (non-redirect, 2xx) upstream response the
handler rejects with the 400 content-policy error unless the effective
content type starts with `image/`, and rejects every content type
containing `svg` (SVG-family types are rejected although they are image
types); a streamed success certifies the content type passed both checks. -/
theorem claim_C8_content_type_policy :
    ∀ resp : UpstreamResponse,
      REDIRECT_STATUSES.contains resp.status = false →
      200 ≤ resp.status → resp.status ≤ 299 →
      ((strStartsWith (effectiveContentType resp) "image/" = false ∨
          strContains (effectiveContentType resp) "svg" = true) →
        processResponse resp = .error 400 "URL does not point to an allowed image type.") ∧
      (∀ st ct body, processResponse resp = .stream st ct body →
        strStartsWith ct "image/" = true ∧ strContains ct "svg" = false) :=
  processResponse_content_policy

theorem claim_C8_witness :
    processResponse
      { status := 200, contentType := some "image/svg+xml", body := some [5] } =
      .error 400 "URL does not point to an allowed image type." :=
  (claim_C8_content_type_policy
    { status := 200, contentType := some "image/svg+xml", body := some [5] }
    (by decide) (by decide) (by decide)).1 (Or.inr (by decide))

/-- Claim C9 counterexample: The claim says an actual streamed size over
the limit yields HTTP 413.  It does not: with no `Content-Length` header
and an oversize body, the handler commits a 200 streaming response (headers
already sent) and the relay aborts mid-stream; the status the caller saw is
200, not 413. -/
theorem claim_C9_counterexample :
    (imageProxyHandler c9World (some "https://big.example/a.png")
        (some (signImageUrl "https://big.example/a.png" "k")) "k").1 =
      .stream 200 "image/png" [10485761] ∧
    MAX_SIZE < ([10485761] : List Nat).sum ∧
    statusCodeOf (imageProxyHandler c9World (some "https://big.example/a.png")
      (some (signImageUrl "https://big.example/a.png" "k")) "k").1 = 200 ∧
    (200 : Nat) ≠ 413 := by
  have hv := verify_sign_roundtrip "https://big.example/a.png" "k" (by decide)
  have heq : imageProxyHandler c9World (some "https://big.example/a.png")
      (some (signImageUrl "https://big.example/a.png" "k")) "k" =
      (.stream 200 "image/png" [10485761],
        ⟨["https://big.example/a.png"], ["big.example"]⟩) := by
    simp only [imageProxyHandler, optFalsy, signImageUrl_beq_empty, hv, Option.getD_some]
    decide
  exact ⟨by rw [heq], by decide, by rw [heq]; rfl, by decide⟩

/-- Claim C9 amended: A declared size over the limit (a parsable
`Content-Length` above `MAX_SIZE` on an otherwise acceptable terminal
response) is rejected with 413 before any body bytes are read; an actual
streamed size over the limit aborts the already-committed 200 stream with a
size error — the relay can never end such a stream as a success — rather
than producing a 413 status. -/
theorem claim_C9_oversize_handling :
    (∀ (resp : UpstreamResponse) (cl : String) (n : Int),
      REDIRECT_STATUSES.contains resp.status = false →
      200 ≤ resp.status → resp.status ≤ 299 →
      strStartsWith (effectiveContentType resp) "image/" = true →
      strContains (effectiveContentType resp) "svg" = false →
      resp.contentLength = some cl → (cl == "") = false →
      jsParseIntDec cl = some n → (MAX_SIZE : Int) < n →
      processResponse resp = .error 413 "Image too large.") ∧
    (∀ (chunks : List Nat) (s : RelayState), MAX_SIZE < chunks.sum →
      RelayReach MAX_SIZE chunks s → s.status ≠ .completedOk) := by
  refine ⟨processResponse_declared_oversize, ?_⟩
  intro chunks s hover hreach hok
  have := relayReach_completed_le MAX_SIZE chunks s hreach hok
  omega

theorem claim_C9_witness :
    processResponse { status := 200, contentType := some "image/png", contentLength := some "10485761", body := some [5] } =
      .error 413 "Image too large." ∧
    (relayRun MAX_SIZE [10485761]).status ≠ .completedOk :=
  ⟨claim_C9_oversize_handling.1
      { status := 200, contentType := some "image/png", contentLength := some "10485761", body := some [5] } "10485761" 10485761
      (by decide) (by decide) (by decide) (by decide) (by decide) rfl (by decide)
      (by decide) (by decide),
   claim_C9_oversize_handling.2 [10485761] _ (by decide) (relayRun_reach _ _)⟩

/-- Claim C10 counterexample: The claim says protocol-relative URLs are
normalized to `https:` wherever a URL is classified, including redirect
targets in the fetch loop.  In the loop, `new URL(location, currentUrl)`
resolves a protocol-relative `Location` against the *current* URL and so
inherits its scheme: from `http://a.example/x`, `Location: //b.example/y`
resolves — and is classified and fetched — as `http://b.example/y`, not
`https://b.example/y`. -/
theorem claim_C10_counterexample :
    (imageProxyHandler c10World (some "http://a.example/x")
        (some (signImageUrl "http://a.example/x" "k")) "k").2.fetches =
      ["http://a.example/x", "http://b.example/y"] ∧
    resolveLocation "//b.example/y" "http://a.example/x" = "http://b.example/y" ∧
    strStartsWith "http://b.example/y" "https:" = false := by
  have hv := verify_sign_roundtrip "http://a.example/x" "k" (by decide)
  have heq : imageProxyHandler c10World (some "http://a.example/x")
      (some (signImageUrl "http://a.example/x" "k")) "k" =
      (.stream 200 "image/png" [1],
        ⟨["http://a.example/x", "http://b.example/y"], ["a.example", "b.example"]⟩) := by
    simp only [imageProxyHandler, optFalsy, signImageUrl_beq_empty, hv, Option.getD_some]
    decide
  exact ⟨by rw [heq], by decide, by decide⟩

/-- Claim C10 amended: Protocol-relative URLs are normalized to `https:`
in `toProxiedImageUrl` (before the trusted-domain check, the scheme check
and signing, all of which operate on the normalized URL); inside the fetch
loop, a protocol-relative redirect target instead inherits the *current*
URL's scheme. -/
theorem claim_C10_protocol_relative_normalization :
    (∀ url secret : String, strStartsWith url "//" = true →
      normalizeProtocolRelative url = "https:" ++ url ∧
      toProxiedImageUrl url secret = toProxiedImageUrlAux ("https:" ++ url) url secret) ∧
    (∀ loc cur : String, strStartsWith loc "//" = true →
      resolveLocation loc cur = urlSchemeOf cur ++ loc) := by
  constructor
  · intro url secret h
    refine ⟨?_, toProxied_protocol_relative url secret h⟩
    unfold normalizeProtocolRelative
    rw [h]
    simp
  · intro loc cur h
    exact resolveLocation_protocol_relative loc cur h

theorem claim_C10_witness :
    (normalizeProtocolRelative "//cdn.example/a.png" = "https:" ++ "//cdn.example/a.png" ∧
      toProxiedImageUrl "//cdn.example/a.png" "k" =
        toProxiedImageUrlAux ("https:" ++ "//cdn.example/a.png") "//cdn.example/a.png" "k") ∧
    resolveLocation "//b.example/y" "https://a.example/x" =
      urlSchemeOf "https://a.example/x" ++ "//b.example/y" :=
  ⟨claim_C10_protocol_relative_normalization.1 "//cdn.example/a.png" "k" (by decide),
   claim_C10_protocol_relative_normalization.2 "//b.example/y" "https://a.example/x"
     (by decide)⟩

end ImageProxy
